import Mathlib

/-!
Verification of the esp32s3-serialusb-network core against its design
specification.  The definitions below are a shallow embedding of
src/main/led_indicator.cpp and src/main/http-server.cpp: external calls
(HTTP receive, OTA/partition API, WebSocket send) are modelled as
oracles supplied in an environment record, and each handler is a pure
function from that environment to its outcome, the list of storage
actions it performed, and the list of indicator-state calls it made.
-/

/-- The LedState enum from src/main/led_indicator.h. -/
inductive LedState
  | IDLE
  | WIFI_DISCONNECTED
  | USB_CONNECTED
  | WEB_TERMINAL_ACTIVE
  | UPLOADING
  | ERROR
deriving DecidableEq, Repr

/-- LedIndicator::setState from src/main/led_indicator.cpp lines 36-51:
ERROR is latched; UPLOADING is only superseded by ERROR; otherwise the
new state is stored. -/
def setState (currentState newState : LedState) : LedState :=
  if currentState = LedState.ERROR then currentState
  else if currentState = LedState.UPLOADING ∧ newState ≠ LedState.ERROR then currentState
  else newState

/-- Rank of each state in the fixed priority order described by the
spec: Fault (ERROR) highest, Updating (UPLOADING) next, all others
below. -/
def ledRank : LedState → Nat
  | LedState.ERROR => 2
  | LedState.UPLOADING => 1
  | _ => 0

/-- Modelled from the spec's words (for the refinement claim about
setState): the stored value is updated unless the current value
outranks the new one. -/
def setState_spec (currentState newState : LedState) : LedState :=
  if ledRank newState < ledRank currentState then currentState else newState

/-- Result of one per-client httpd_ws_send_frame_async call:
ESP_OK, ESP_ERR_NO_MEM (async send queue full, i.e. backpressure), or
any other error code (fatal for that client). -/
inductive SendRes
  | ok
  | noMem
  | fatal (code : Int)
deriving DecidableEq, Repr

/-- True unless the send result is a fatal error. -/
def keepB : SendRes → Bool
  | SendRes.fatal _ => false
  | _ => true

/-- True exactly when the send result is ESP_OK. -/
def okB : SendRes → Bool
  | SendRes.ok => true
  | _ => false

/-- HttpServer::broadcast (src/main/http-server.cpp lines 225-271):
walks the client list; ESP_OK keeps the client (frame delivered),
ESP_ERR_NO_MEM keeps the client (packet dropped), any other error
erases the client.  Returns the new registry and the list of clients
the frame was delivered to. -/
def broadcastRun (send : Int → SendRes) : List Int → List Int × List Int
  | [] => ([], [])
  | fd :: rest =>
    let r := broadcastRun send rest
    match send fd with
    | SendRes.ok => (fd :: r.1, fd :: r.2)
    | SendRes.noMem => (fd :: r.1, r.2)
    | SendRes.fatal _ => (r.1, r.2)

/-- One sweep of HttpServer::ping_task (src/main/http-server.cpp lines
60-72): a ping frame is sent to every client and the client is erased
on ANY non-ESP_OK result. -/
def pingSweep (send : Int → SendRes) : List Int → List Int
  | [] => []
  | fd :: rest =>
    match send fd with
    | SendRes.ok => fd :: pingSweep send rest
    | _ => pingSweep send rest

/-- The subscribe step of HttpServer::websocket_handler on the initial
GET (src/main/http-server.cpp lines 281-294): the fd is appended only
if not already present, and the indicator is raised to
WEB_TERMINAL_ACTIVE when the registry was empty. -/
def subscribe (led : LedState) (clients : List Int) (fd : Int) : List Int × LedState :=
  if clients.contains fd then (clients, led)
  else
    let led' := if clients.isEmpty then setState led LedState.WEB_TERMINAL_ACTIVE else led
    (clients ++ [fd], led')

/-- HttpServer::handle_client_close (src/main/http-server.cpp lines
557-582): erases the fd if present; if the registry became empty the
indicator is restored to USB_CONNECTED or IDLE depending on whether the
USB handler currently reports a connected device. -/
def handle_client_close (led : LedState) (usbConnected : Bool) (clients : List Int) (fd : Int) :
    List Int × LedState :=
  if clients.contains fd then
    let clients' := clients.erase fd
    let led' :=
      if clients'.isEmpty then
        if usbConnected then setState led LedState.USB_CONNECTED
        else setState led LedState.IDLE
      else led
    (clients', led')
  else (clients, led)

/-- 2^32, the modulus of size_t arithmetic on the ESP32-S3. -/
def SZ : Nat := 4294967296

/-- The pattern searched for in the Cookie header by
HttpServer::is_authenticated. -/
def sessionValidPat : List Char := String.toList "session=valid"

/-- Substring test, as strstr does on the cookie buffer. -/
def containsSub (pat : List Char) : List Char → Bool
  | [] => pat.isEmpty
  | c :: rest => pat.isPrefixOf (c :: rest) || containsSub pat rest

/-- HttpServer::is_authenticated (src/main/http-server.cpp lines
82-101): authenticated exactly when the Cookie header was read
successfully and contains the substring session=valid.  The argument is
the cookie header as read into the 64-byte buffer, or none when
httpd_req_get_hdr_value_str did not return ESP_OK. -/
def is_authenticated (cookieHdr : Option (List Char)) : Bool :=
  match cookieHdr with
  | some buf => containsSub sessionValidPat buf
  | none => false

/-- One result of httpd_req_recv: HTTPD_SOCK_ERR_TIMEOUT, some other
non-positive error code, or a chunk of n received bytes (n = the
positive return value r). -/
inductive RecvResult
  | timeout
  | err (code : Int)
  | chunk (n : Nat)
deriving DecidableEq, Repr

/-- Storage actions performed by the firmware upload handler. -/
inductive OtaAction
  | otaBegin (part : Nat)
  | otaWrite (part : Nat) (len : Nat)
  | otaEnd
  | setBootPartition (part : Nat)
deriving DecidableEq, Repr

/-- Outcome of HttpServer::firmware_upload_handler.  blocked means the
receive loop ran past the supplied trace of recv results (it is still
waiting inside httpd_req_recv).  sessionBusy is never produced: the
handler has no session-busy path. -/
inductive FwOutcome
  | unauthorized
  | noOtaPartition
  | otaBeginFailed
  | noMemory
  | recvError
  | writeFailed
  | otaEndFailed
  | setBootFailed
  | ok
  | sessionBusy
  | blocked
deriving DecidableEq, Repr

/-- The receive/write loop of HttpServer::firmware_upload_handler
(src/main/http-server.cpp lines 147-177), driven by a trace of recv
results.  upd is the update partition, f says whether the k-th
esp_ota_write call succeeds.  size_t arithmetic is taken mod 2^32.
Returns none when the loop completes (remaining reached 0) or the
failure outcome, together with the storage actions performed. -/
def fwLoop (upd : Nat) (f : Nat → Bool) :
    List RecvResult → Nat → Nat → Option FwOutcome × List OtaAction
  | _, 0, _ => (none, [])
  | [], _ + 1, _ => (some FwOutcome.blocked, [])
  | RecvResult.timeout :: rest, r + 1, wc => fwLoop upd f rest (r + 1) wc
  | RecvResult.err _ :: _, _ + 1, _ => (some FwOutcome.recvError, [OtaAction.otaEnd])
  | RecvResult.chunk n :: rest, r + 1, wc =>
    if f wc then
      let res := fwLoop upd f rest ((r + 1 + (SZ - n % SZ)) % SZ) (wc + 1)
      (res.1, OtaAction.otaWrite upd n :: res.2)
    else (some FwOutcome.writeFailed, [OtaAction.otaWrite upd n, OtaAction.otaEnd])

/-- Environment of one firmware_upload_handler invocation: the cookie
header, req->content_len, the partition returned by
esp_ota_get_next_update_partition (none on failure), the identity of
the currently running/booting partition, success of esp_ota_begin,
malloc, each esp_ota_write, esp_ota_end and
esp_ota_set_boot_partition, and the trace of httpd_req_recv results. -/
structure FwEnv where
  cookieHdr : Option (List Char)
  contentLen : Nat
  updatePart : Option Nat
  runningPart : Nat
  otaBeginOk : Bool
  mallocOk : Bool
  recvTrace : List RecvResult
  writeOk : Nat → Bool
  otaEndOk : Bool
  setBootOk : Bool

/-- Observable result of a firmware_upload_handler invocation. -/
structure FwResult where
  outcome : FwOutcome
  ledCalls : List LedState
  actions : List OtaAction
deriving DecidableEq, Repr

/-- HttpServer::firmware_upload_handler (src/main/http-server.cpp lines
103-204): authentication check, setState(UPLOADING), select the next
update partition, esp_ota_begin, the receive/write loop, esp_ota_end
(the integrity verifier), and only after it succeeds
esp_ota_set_boot_partition. -/
def firmware_upload_handler (env : FwEnv) : FwResult :=
  if is_authenticated env.cookieHdr = false then
    ⟨FwOutcome.unauthorized, [], []⟩
  else
    match env.updatePart with
    | none => ⟨FwOutcome.noOtaPartition, [LedState.UPLOADING], []⟩
    | some upd =>
      if env.otaBeginOk = false then
        ⟨FwOutcome.otaBeginFailed, [LedState.UPLOADING], [OtaAction.otaBegin upd]⟩
      else if env.mallocOk = false then
        ⟨FwOutcome.noMemory, [LedState.UPLOADING], [OtaAction.otaBegin upd, OtaAction.otaEnd]⟩
      else
        match fwLoop upd env.writeOk env.recvTrace env.contentLen 0 with
        | (some o, acts) => ⟨o, [LedState.UPLOADING], OtaAction.otaBegin upd :: acts⟩
        | (none, acts) =>
          if env.otaEndOk = false then
            ⟨FwOutcome.otaEndFailed, [LedState.UPLOADING],
              OtaAction.otaBegin upd :: (acts ++ [OtaAction.otaEnd])⟩
          else if env.setBootOk = false then
            ⟨FwOutcome.setBootFailed, [LedState.UPLOADING],
              OtaAction.otaBegin upd :: (acts ++ [OtaAction.otaEnd, OtaAction.setBootPartition upd])⟩
          else
            ⟨FwOutcome.ok, [LedState.UPLOADING],
              OtaAction.otaBegin upd :: (acts ++ [OtaAction.otaEnd, OtaAction.setBootPartition upd])⟩

/-- Does this action write image bytes into (or erase) partition p?
otaBegin erases the target partition; otaWrite writes to it; otaEnd
only verifies; setBootPartition updates the boot pointer in the otadata
region, not the image region. -/
def touchesPart (p : Nat) : OtaAction → Bool
  | OtaAction.otaBegin q => q = p
  | OtaAction.otaWrite q _ => q = p
  | _ => false

/-- Recognizer for the esp_ota_set_boot_partition action. -/
def isSetBootA : OtaAction → Bool
  | OtaAction.setBootPartition _ => true
  | _ => false

/-- Does the action list contain an esp_ota_set_boot_partition call? -/
def hasSetBoot (acts : List OtaAction) : Bool :=
  acts.any isSetBootA

/-- The failure outcomes of the firmware handler enumerated by the
fail-safe claim (everything except success and a failure of the
set-boot call itself). -/
def isFailureOutcome : FwOutcome → Bool
  | FwOutcome.ok => false
  | FwOutcome.setBootFailed => false
  | _ => true

/-- Recognizer for the sessionBusy outcome of the firmware handler. -/
def isSessionBusyFw : FwOutcome → Bool
  | FwOutcome.sessionBusy => true
  | _ => false

/-- Storage actions performed by the filesystem upload handler, all on
the littlefs data partition. -/
inductive FsAction
  | erase (size : Nat)
  | write (off : Nat) (len : Nat)
deriving DecidableEq, Repr

/-- Recognizer for write actions of the filesystem handler. -/
def isFsWrite : FsAction → Bool
  | FsAction.write _ _ => true
  | _ => false

/-- Outcome of HttpServer::fs_upload_handler.  payloadTooLarge is the
413 response (both the pre-check and the in-loop bounds guard send the
same status and body).  sessionBusy is never produced. -/
inductive FsOutcome
  | unauthorized
  | partitionNotFound
  | emptyBody
  | payloadTooLarge
  | eraseFailed
  | noMemory
  | recvError
  | writeFailed
  | ok
  | sessionBusy
  | blocked
deriving DecidableEq, Repr

/-- Recognizer for the sessionBusy outcome of the filesystem handler. -/
def isSessionBusyFs : FsOutcome → Bool
  | FsOutcome.sessionBusy => true
  | _ => false

/-- The receive/write loop of HttpServer::fs_upload_handler
(src/main/http-server.cpp lines 447-485): recv, the belt-and-braces
bounds guard written + r > p->size, esp_partition_write, and the
written/remaining updates, all in size_t arithmetic mod 2^32.  Returns
none on completion or the failure outcome, the actions performed, and
the final written counter. -/
def fsLoop (cap : Nat) (f : Nat → Bool) :
    List RecvResult → Nat → Nat → Nat → Option FsOutcome × List FsAction × Nat
  | _, 0, written, _ => (none, [], written)
  | [], _ + 1, written, _ => (some FsOutcome.blocked, [], written)
  | RecvResult.timeout :: rest, r + 1, written, wc => fsLoop cap f rest (r + 1) written wc
  | RecvResult.err _ :: _, _ + 1, written, _ => (some FsOutcome.recvError, [], written)
  | RecvResult.chunk n :: rest, r + 1, written, wc =>
    if cap < (written + n) % SZ then (some FsOutcome.payloadTooLarge, [], written)
    else if f wc = false then (some FsOutcome.writeFailed, [FsAction.write written n], written)
    else
      let res := fsLoop cap f rest ((r + 1 + (SZ - n % SZ)) % SZ) ((written + n) % SZ) (wc + 1)
      (res.1, FsAction.write written n :: res.2.1, res.2.2)

/-- Environment of one fs_upload_handler invocation: cookie header,
whether esp_partition_find_first found the littlefs partition, its
size, req->content_len, success of erase, malloc and each
esp_partition_write, and the trace of httpd_req_recv results. -/
structure FsEnv where
  cookieHdr : Option (List Char)
  partFound : Bool
  partSize : Nat
  contentLen : Nat
  eraseOk : Bool
  mallocOk : Bool
  recvTrace : List RecvResult
  writeOk : Nat → Bool

/-- Observable result of an fs_upload_handler invocation. -/
structure FsResult where
  outcome : FsOutcome
  ledCalls : List LedState
  actions : List FsAction
  written : Nat
deriving DecidableEq, Repr

/-- HttpServer::fs_upload_handler (src/main/http-server.cpp lines
386-498): authentication check, setState(UPLOADING), find the littlefs
partition, reject an empty body, reject img_size > p->size with 413
before any erase, erase the whole partition, then the receive/write
loop. -/
def fs_upload_handler (env : FsEnv) : FsResult :=
  if is_authenticated env.cookieHdr = false then
    ⟨FsOutcome.unauthorized, [], [], 0⟩
  else
    if env.partFound = false then
      ⟨FsOutcome.partitionNotFound, [LedState.UPLOADING], [], 0⟩
    else if env.contentLen = 0 then
      ⟨FsOutcome.emptyBody, [LedState.UPLOADING], [], 0⟩
    else if env.partSize < env.contentLen then
      ⟨FsOutcome.payloadTooLarge, [LedState.UPLOADING], [], 0⟩
    else if env.eraseOk = false then
      ⟨FsOutcome.eraseFailed, [LedState.UPLOADING], [FsAction.erase env.partSize], 0⟩
    else if env.mallocOk = false then
      ⟨FsOutcome.noMemory, [LedState.UPLOADING], [FsAction.erase env.partSize], 0⟩
    else
      match fsLoop env.partSize env.writeOk env.recvTrace env.contentLen 0 0 with
      | (some o, acts, w) => ⟨o, [LedState.UPLOADING], FsAction.erase env.partSize :: acts, w⟩
      | (none, acts, w) => ⟨FsOutcome.ok, [LedState.UPLOADING], FsAction.erase env.partSize :: acts, w⟩

/-- Well-formedness of a recv trace against the loop that consumes it,
expressing the httpd_req_recv contract: a returned chunk is positive
and no larger than the requested amount min(remaining, 4096).  Entries
past the point where remaining reaches 0, or past an error, are not
consumed and are unconstrained. -/
def traceValid : Nat → List RecvResult → Bool
  | _, [] => true
  | 0, _ :: _ => true
  | r + 1, RecvResult.timeout :: rest => traceValid (r + 1) rest
  | _ + 1, RecvResult.err _ :: _ => true
  | r + 1, RecvResult.chunk n :: rest =>
    decide (0 < n) && decide (n ≤ min (r + 1) 4096) && traceValid (r + 1 - n) rest

/-- A successful firmware upload environment: authenticated request,
100 bytes of content, update partition 1, running partition 0, all
external calls succeeding, one chunk of 100 bytes. -/
def fwEnvW : FwEnv :=
  ⟨some sessionValidPat, 100, some 1, 0, true, true, [RecvResult.chunk 100],
    fun _ => true, true, true⟩

/-- A firmware upload whose transport times out ten consecutive times
before delivering the single 100-byte chunk. -/
def fwEnvTO : FwEnv :=
  ⟨some sessionValidPat, 100, some 1, 0, true, true,
    List.replicate 10 RecvResult.timeout ++ [RecvResult.chunk 100],
    fun _ => true, true, true⟩

/-- An unauthenticated firmware upload request (no cookie header). -/
def fwEnvUnauth : FwEnv :=
  ⟨none, 100, some 1, 0, true, true, [RecvResult.chunk 100], fun _ => true, true, true⟩

/-- An unauthenticated filesystem upload request (no cookie header). -/
def fsEnvUnauth : FsEnv :=
  ⟨none, true, 65536, 100, true, true, [RecvResult.chunk 100], fun _ => true⟩

/-- A successful filesystem upload: declared length 1000 into a
65536-byte partition, delivered as chunks of 400, 400 and 200 bytes. -/
def fsEnv1000 : FsEnv :=
  ⟨some sessionValidPat, true, 65536, 1000, true, true,
    [RecvResult.chunk 400, RecvResult.chunk 400, RecvResult.chunk 200], fun _ => true⟩

/-- An authenticated filesystem upload of 100 bytes, standing for an
upload request arriving while another update is already streaming: the
handler has no session-state input, so its behaviour is the same. -/
def fsEnvC3 : FsEnv :=
  ⟨some sessionValidPat, true, 65536, 100, true, true, [RecvResult.chunk 100], fun _ => true⟩

/-- A filesystem upload whose declared length 20 exceeds the 10-byte
partition capacity. -/
def fsEnvC6 : FsEnv :=
  ⟨some sessionValidPat, true, 10, 20, true, true, [RecvResult.chunk 10], fun _ => true⟩

/-- A small successful filesystem upload used as a generic instance. -/
def fsEnvC6b : FsEnv :=
  ⟨some sessionValidPat, true, 4096, 50, true, true, [RecvResult.chunk 50], fun _ => true⟩

/-- A per-client send oracle where client 2 reports a full async queue
(ESP_ERR_NO_MEM) and every other client accepts the frame. -/
def sendW : Int → SendRes :=
  fun c => if c = 2 then SendRes.noMem else SendRes.ok

/-- Once the indicator is in the latched ERROR state, any sequence of
setState calls leaves it there. -/
theorem foldl_err_latch : ∀ l : List LedState, l.foldl setState LedState.ERROR = LedState.ERROR := by
  intro l
  induction l with
  | nil => rfl
  | cons h t ih => simpa [setState] using ih

/-- From UPLOADING, a setState call either stays at UPLOADING or moves
to ERROR. -/
theorem setState_uploading_step (n : LedState) :
    setState LedState.UPLOADING n
      = (if n = LedState.ERROR then LedState.ERROR else LedState.UPLOADING) := by
  cases n <;> rfl

/-- From UPLOADING, any sequence of setState calls not containing ERROR
leaves the state at UPLOADING. -/
theorem foldl_uploading_no_err :
    ∀ l : List LedState, LedState.ERROR ∉ l →
      l.foldl setState LedState.UPLOADING = LedState.UPLOADING := by
  intro l
  induction l with
  | nil => intro _; rfl
  | cons h t ih =>
    intro hmem
    have hh : h ≠ LedState.ERROR := fun he => hmem (he ▸ List.mem_cons_self h t)
    have ht : LedState.ERROR ∉ t := fun he => hmem (List.mem_cons_of_mem h he)
    have : setState LedState.UPLOADING h = LedState.UPLOADING := by
      rw [setState_uploading_step, if_neg hh]
    simpa [List.foldl_cons, this] using ih ht

/-- C5: setState implements exactly the priority order of the spec
(Fault highest, Updating next, the rest below); setState(Updating) then
setState(TerminalActive) leaves Updating; setState(Updating) then
setState(Fault) leaves Fault; and once the state is Fault every
subsequent setState call of any value has no effect. -/
theorem setState_priority_refinement :
    (∀ s n, setState s n = setState_spec s n)
    ∧ setState (setState LedState.IDLE LedState.UPLOADING) LedState.WEB_TERMINAL_ACTIVE
        = LedState.UPLOADING
    ∧ setState (setState LedState.IDLE LedState.UPLOADING) LedState.ERROR = LedState.ERROR
    ∧ (∀ l : List LedState, l.foldl setState LedState.ERROR = LedState.ERROR) := by
  refine ⟨?_, rfl, rfl, foldl_err_latch⟩
  intro s n
  cases s <;> cases n <;> rfl

/-- A broadcast keeps exactly the clients whose send did not fail
fatally. -/
theorem broadcastRun_reg_filter (send : Int → SendRes) :
    ∀ l : List Int, (broadcastRun send l).1 = l.filter (fun c => keepB (send c)) := by
  intro l
  induction l with
  | nil => rfl
  | cons fd rest ih =>
    cases hs : send fd <;> simp [broadcastRun, hs, keepB, ih]

/-- A broadcast delivers the frame exactly to the clients whose send
returned ESP_OK. -/
theorem broadcastRun_delivered_filter (send : Int → SendRes) :
    ∀ l : List Int, (broadcastRun send l).2 = l.filter (fun c => okB (send c)) := by
  intro l
  induction l with
  | nil => rfl
  | cons fd rest ih =>
    cases hs : send fd <;> simp [broadcastRun, hs, okB, ih]

/-- A ping sweep keeps exactly the clients whose send returned
ESP_OK. -/
theorem pingSweep_filter (send : Int → SendRes) :
    ∀ l : List Int, pingSweep send l = l.filter (fun c => okB (send c)) := by
  intro l
  induction l with
  | nil => rfl
  | cons fd rest ih =>
    cases hs : send fd <;> simp [pingSweep, hs, okB, ih]

/-- C2 counterexample: a client whose ping send reports a full async
queue (ESP_ERR_NO_MEM, i.e. Backpressure) is removed from the registry
by ping_task, contradicting the claim that a Backpressure result never
removes a subscribed client. -/
theorem ping_backpressure_removes_client :
    (5 : Int) ∈ [(5 : Int)] ∧ pingSweep (fun _ => SendRes.noMem) [(5 : Int)] = [] :=
  ⟨by decide, rfl⟩

/-- A client whose send result is Backpressure on every broadcast of a
sequence is still in the registry after all of them. -/
theorem foldl_broadcast_keeps (fd : Int) :
    ∀ (sends : List (Int → SendRes)) (l : List Int), fd ∈ l →
      (∀ s ∈ sends, s fd = SendRes.noMem) →
      fd ∈ List.foldl (fun reg s => (broadcastRun s reg).1) l sends := by
  intro sends
  induction sends with
  | nil => intro l hfd _; simpa using hfd
  | cons s ss ih =>
    intro l hfd hbp
    have hs : s fd = SendRes.noMem := hbp s (List.mem_cons_self s ss)
    have hmem : fd ∈ (broadcastRun s l).1 := by
      rw [broadcastRun_reg_filter]
      exact List.mem_filter.2 ⟨hfd, by simp [hs, keepB]⟩
    have hbp' : ∀ s' ∈ ss, s' fd = SendRes.noMem := fun s' hs' =>
      hbp s' (List.mem_cons_of_mem s hs')
    simpa [List.foldl_cons] using ih _ hmem hbp'

/-- C2 (amended): during a data broadcast a Backpressure
(ESP_ERR_NO_MEM) result keeps the client subscribed — any number of
consecutive Backpressure broadcasts never removes it — and any other
failure removes exactly that client; delivery to each client depends
only on its own send result; but a ping frame removes the client on
ANY non-Ok result, Backpressure included. -/
theorem broadcast_ping_policy (send : Int → SendRes) (sends : List (Int → SendRes))
    (l : List Int) (fd : Int) (hfd : fd ∈ l)
    (hbp : ∀ s ∈ sends, s fd = SendRes.noMem) :
    (broadcastRun send l).1 = l.filter (fun c => keepB (send c))
    ∧ (broadcastRun send l).2 = l.filter (fun c => okB (send c))
    ∧ pingSweep send l = l.filter (fun c => okB (send c))
    ∧ fd ∈ List.foldl (fun reg s => (broadcastRun s reg).1) l sends :=
  ⟨broadcastRun_reg_filter send l, broadcastRun_delivered_filter send l,
    pingSweep_filter send l, foldl_broadcast_keeps fd sends l hfd hbp⟩

/-- C2 witness: three clients, client 2 reporting Backpressure on two
consecutive broadcasts stays subscribed while clients 1 and 3 receive
the frame. -/
theorem broadcast_ping_policy_witness :
    ((2 : Int) ∈ [(1 : Int), 2, 3] ∧ ∀ s ∈ [sendW, sendW], s 2 = SendRes.noMem)
    ∧ ((broadcastRun sendW [(1 : Int), 2, 3]).1
          = List.filter (fun c => keepB (sendW c)) [(1 : Int), 2, 3]
        ∧ (broadcastRun sendW [(1 : Int), 2, 3]).2
          = List.filter (fun c => okB (sendW c)) [(1 : Int), 2, 3]
        ∧ pingSweep sendW [(1 : Int), 2, 3]
          = List.filter (fun c => okB (sendW c)) [(1 : Int), 2, 3]
        ∧ (2 : Int) ∈ List.foldl (fun reg s => (broadcastRun s reg).1) [(1 : Int), 2, 3]
            [sendW, sendW]) :=
  ⟨⟨by decide, by decide⟩,
    broadcast_ping_policy sendW [sendW, sendW] [(1 : Int), 2, 3] 2 (by decide) (by decide)⟩

/-- C7: subscribe adds the client only if not already present (never a
duplicate), raises the indicator to WEB_TERMINAL_ACTIVE (through the
prioritized setState) exactly when the registry was empty before the
call; handle_client_close removes the client if present, and when the
registry becomes empty restores the indicator (again through setState)
to USB_CONNECTED when the serial transport reports a connected device
and to IDLE otherwise. -/
theorem subscribe_unsubscribe_correct (led : LedState) (clients : List Int) (fd : Int)
    (usb : Bool) (h : clients.Nodup) :
    (subscribe led clients fd).1 = (if clients.contains fd then clients else clients ++ [fd])
    ∧ (subscribe led clients fd).2
        = (if clients.isEmpty then setState led LedState.WEB_TERMINAL_ACTIVE else led)
    ∧ ((subscribe led clients fd).1).Nodup
    ∧ (handle_client_close led usb clients fd).1 = clients.erase fd
    ∧ (handle_client_close led usb clients fd).2
        = (if clients.contains fd && (clients.erase fd).isEmpty then
            (if usb then setState led LedState.USB_CONNECTED else setState led LedState.IDLE)
          else led) := by
  by_cases hmem : fd ∈ clients
  · have hne : clients ≠ [] := by
      intro he
      rw [he] at hmem
      exact (List.not_mem_nil fd) hmem
    refine ⟨by simp [subscribe, hmem], by simp [subscribe, hmem, hne], by simp [subscribe, hmem, h],
      by simp [handle_client_close, hmem], by simp [handle_client_close, hmem]⟩
  · have her : clients.erase fd = clients := List.erase_of_not_mem hmem
    refine ⟨by simp [subscribe, hmem], by simp [subscribe, hmem], ?_,
      by simp [handle_client_close, hmem, her], by simp [handle_client_close, hmem]⟩
    have hsub : (subscribe led clients fd).1 = clients ++ [fd] := by simp [subscribe, hmem]
    rw [hsub, List.nodup_append]
    exact ⟨h, List.nodup_singleton fd, by simpa using hmem⟩

/-- C7 witness: a single subscribed client 7 with a connected serial
device; closing it empties the registry and restores USB_CONNECTED. -/
theorem subscribe_unsubscribe_correct_witness :
    ([(7 : Int)].Nodup)
    ∧ ((subscribe LedState.USB_CONNECTED [(7 : Int)] 9).1
          = (if List.contains [(7 : Int)] 9 then [(7 : Int)] else [(7 : Int)] ++ [9])
        ∧ (subscribe LedState.USB_CONNECTED [(7 : Int)] 9).2
          = (if List.isEmpty [(7 : Int)] then
              setState LedState.USB_CONNECTED LedState.WEB_TERMINAL_ACTIVE
            else LedState.USB_CONNECTED)
        ∧ ((subscribe LedState.USB_CONNECTED [(7 : Int)] 9).1).Nodup
        ∧ (handle_client_close LedState.USB_CONNECTED true [(7 : Int)] 9).1
          = List.erase [(7 : Int)] 9
        ∧ (handle_client_close LedState.USB_CONNECTED true [(7 : Int)] 9).2
          = (if List.contains [(7 : Int)] 9 && (List.erase [(7 : Int)] 9).isEmpty then
              (if true then setState LedState.USB_CONNECTED LedState.USB_CONNECTED
              else setState LedState.USB_CONNECTED LedState.IDLE)
            else LedState.USB_CONNECTED)) :=
  ⟨by decide, subscribe_unsubscribe_correct LedState.USB_CONNECTED [(7 : Int)] 9 true (by decide)⟩

/-- C9: the authentication check is evaluated before any side effect of
either upload handler — an unauthenticated request yields the 401
outcome with no indicator call and no storage action at all. -/
theorem auth_before_side_effects (fe : FwEnv) (ge : FsEnv)
    (h1 : is_authenticated fe.cookieHdr = false)
    (h2 : is_authenticated ge.cookieHdr = false) :
    firmware_upload_handler fe = ⟨FwOutcome.unauthorized, [], []⟩
    ∧ fs_upload_handler ge = ⟨FsOutcome.unauthorized, [], [], 0⟩ := by
  constructor
  · simp [firmware_upload_handler, h1]
  · simp [fs_upload_handler, h2]

/-- C9 witness: requests without a cookie header are rejected with 401
and perform nothing. -/
theorem auth_before_side_effects_witness :
    (is_authenticated fwEnvUnauth.cookieHdr = false
      ∧ is_authenticated fsEnvUnauth.cookieHdr = false)
    ∧ (firmware_upload_handler fwEnvUnauth = ⟨FwOutcome.unauthorized, [], []⟩
      ∧ fs_upload_handler fsEnvUnauth = ⟨FsOutcome.unauthorized, [], [], 0⟩) :=
  ⟨⟨rfl, rfl⟩, auth_before_side_effects fwEnvUnauth fsEnvUnauth rfl rfl⟩

/-- The firmware handler makes exactly one indicator call, UPLOADING,
on every authenticated path, and none when unauthenticated. -/
theorem fw_ledCalls (env : FwEnv) :
    (firmware_upload_handler env).ledCalls
      = (if is_authenticated env.cookieHdr then [LedState.UPLOADING] else []) := by
  unfold firmware_upload_handler
  cases hauth : is_authenticated env.cookieHdr
  · simp
  · cases hup : env.updatePart with
    | none => simp
    | some upd =>
      by_cases hb : env.otaBeginOk = false
      · simp [hb]
      · by_cases hm : env.mallocOk = false
        · simp [hb, hm]
        · rcases hL : fwLoop upd env.writeOk env.recvTrace env.contentLen 0 with ⟨o, acts⟩
          cases o with
          | some o' => simp [hb, hm, hL]
          | none =>
            by_cases he : env.otaEndOk = false
            · simp [hb, hm, hL, he]
            · by_cases hs : env.setBootOk = false
              · simp [hb, hm, hL, he, hs]
              · simp [hb, hm, hL, he, hs]

/-- The filesystem handler makes exactly one indicator call, UPLOADING,
on every authenticated path, and none when unauthenticated. -/
theorem fs_ledCalls (env : FsEnv) :
    (fs_upload_handler env).ledCalls
      = (if is_authenticated env.cookieHdr then [LedState.UPLOADING] else []) := by
  unfold fs_upload_handler
  cases hauth : is_authenticated env.cookieHdr
  · simp
  · by_cases hp : env.partFound = false
    · simp [hp]
    · by_cases hz : env.contentLen = 0
      · simp [hp, hz]
      · by_cases ho : env.partSize < env.contentLen
        · simp [hp, hz, ho]
        · by_cases he : env.eraseOk = false
          · simp [hp, hz, ho, he]
          · by_cases hm : env.mallocOk = false
            · simp [hp, hz, ho, he, hm]
            · rcases hL : fsLoop env.partSize env.writeOk env.recvTrace env.contentLen 0 0
                with ⟨o, acts, w⟩
              cases o with
              | some o' => simp [hp, hz, ho, he, hm, hL]
              | none => simp [hp, hz, ho, he, hm, hL]

/-- From UPLOADING, any sequence of setState calls leaves the state at
UPLOADING or moves it to the latched ERROR state. -/
theorem foldl_uploading_cases :
    ∀ l : List LedState,
      List.foldl setState LedState.UPLOADING l = LedState.UPLOADING
      ∨ List.foldl setState LedState.UPLOADING l = LedState.ERROR := by
  intro l
  induction l with
  | nil => exact Or.inl rfl
  | cons h t ih =>
    by_cases he : h = LedState.ERROR
    · subst he
      right
      simpa [List.foldl_cons, setState] using foldl_err_latch t
    · have hstep : setState LedState.UPLOADING h = LedState.UPLOADING := by
        rw [setState_uploading_step, if_neg he]
      simpa [List.foldl_cons, hstep] using ih

/-- C10: each update handler calls setState exactly once, with
UPLOADING, after passing authentication and never with any other value,
and from UPLOADING the prioritized setState ignores every
lower-priority request — only ERROR (Fault) can change the state — so
after a failed update the indicator stays UPLOADING until restart. -/
theorem uploading_latched (fe : FwEnv) (ge : FsEnv) (l : List LedState)
    (hl : LedState.ERROR ∉ l) :
    (firmware_upload_handler fe).ledCalls
      = (if is_authenticated fe.cookieHdr then [LedState.UPLOADING] else [])
    ∧ (fs_upload_handler ge).ledCalls
      = (if is_authenticated ge.cookieHdr then [LedState.UPLOADING] else [])
    ∧ List.foldl setState LedState.UPLOADING l = LedState.UPLOADING
    ∧ (∀ l2 : List LedState,
        List.foldl setState LedState.UPLOADING l2 = LedState.UPLOADING
        ∨ List.foldl setState LedState.UPLOADING l2 = LedState.ERROR) :=
  ⟨fw_ledCalls fe, fs_ledCalls ge, foldl_uploading_no_err l hl, foldl_uploading_cases⟩

/-- C10 witness: after an authenticated firmware upload request sets
UPLOADING, later TerminalActive and Idle requests leave it UPLOADING. -/
theorem uploading_latched_witness :
    (LedState.ERROR ∉ [LedState.IDLE, LedState.WEB_TERMINAL_ACTIVE])
    ∧ ((firmware_upload_handler fwEnvUnauth).ledCalls
        = (if is_authenticated fwEnvUnauth.cookieHdr then [LedState.UPLOADING] else [])
      ∧ (fs_upload_handler fsEnvUnauth).ledCalls
        = (if is_authenticated fsEnvUnauth.cookieHdr then [LedState.UPLOADING] else [])
      ∧ List.foldl setState LedState.UPLOADING [LedState.IDLE, LedState.WEB_TERMINAL_ACTIVE]
        = LedState.UPLOADING
      ∧ (∀ l2 : List LedState,
          List.foldl setState LedState.UPLOADING l2 = LedState.UPLOADING
          ∨ List.foldl setState LedState.UPLOADING l2 = LedState.ERROR)) :=
  ⟨by decide,
    uploading_latched fwEnvUnauth fsEnvUnauth [LedState.IDLE, LedState.WEB_TERMINAL_ACTIVE]
      (by decide)⟩

/-- A leading receive timeout leaves the firmware receive loop exactly
where it was: same offset, same write count. -/
theorem fwLoop_timeout_skip (upd : Nat) (f : Nat → Bool) (rest : List RecvResult) (r wc : Nat) :
    fwLoop upd f (RecvResult.timeout :: rest) r wc = fwLoop upd f rest r wc := by
  cases r <;> simp [fwLoop]

/-- A leading receive timeout leaves the filesystem receive loop
exactly where it was. -/
theorem fsLoop_timeout_skip (cap : Nat) (f : Nat → Bool) (rest : List RecvResult)
    (r w wc : Nat) :
    fsLoop cap f (RecvResult.timeout :: rest) r w wc = fsLoop cap f rest r w wc := by
  cases r <;> simp [fsLoop]

/-- Any number of consecutive timeouts is transparent to the firmware
receive loop. -/
theorem fwLoop_replicate_timeout (upd : Nat) (f : Nat → Bool) :
    ∀ (k : Nat) (trace : List RecvResult) (r wc : Nat),
      fwLoop upd f (List.replicate k RecvResult.timeout ++ trace) r wc
        = fwLoop upd f trace r wc := by
  intro k
  induction k with
  | zero => intro trace r wc; rfl
  | succ k ih =>
    intro trace r wc
    rw [List.replicate_succ, List.cons_append, fwLoop_timeout_skip]
    exact ih trace r wc

/-- Any number of consecutive timeouts is transparent to the filesystem
receive loop. -/
theorem fsLoop_replicate_timeout (cap : Nat) (f : Nat → Bool) :
    ∀ (k : Nat) (trace : List RecvResult) (r w wc : Nat),
      fsLoop cap f (List.replicate k RecvResult.timeout ++ trace) r w wc
        = fsLoop cap f trace r w wc := by
  intro k
  induction k with
  | zero => intro trace r w wc; rfl
  | succ k ih =>
    intro trace r w wc
    rw [List.replicate_succ, List.cons_append, fsLoop_timeout_skip]
    exact ih trace r w wc

/-- C4 counterexample: ten consecutive receive timeouts — far beyond
the claimed bound of three — do not fail the session with
TransportFatal: the firmware upload then completes successfully, so the
retry-on-timeout loop is unbounded. -/
theorem unbounded_timeout_retry_cex :
    fwEnvTO.recvTrace = List.replicate 10 RecvResult.timeout ++ [RecvResult.chunk 100]
    ∧ (firmware_upload_handler fwEnvTO).outcome = FwOutcome.ok :=
  ⟨rfl, by decide⟩

/-- C4 (amended): a transient receive timeout is retried at the same
offset without any bound — any number of consecutive timeouts leaves
both receive loops exactly where they were and never fails the session
— while any non-timeout receive error fails the session immediately. -/
theorem timeout_retry_unbounded (upd cap : Nat) (f g : Nat → Bool)
    (trace : List RecvResult) (k remaining written wc : Nat) (e : Int)
    (hrem : remaining ≠ 0) :
    fwLoop upd f (List.replicate k RecvResult.timeout ++ trace) remaining wc
      = fwLoop upd f trace remaining wc
    ∧ fsLoop cap g (List.replicate k RecvResult.timeout ++ trace) remaining written wc
      = fsLoop cap g trace remaining written wc
    ∧ fwLoop upd f (RecvResult.err e :: trace) remaining wc
      = (some FwOutcome.recvError, [OtaAction.otaEnd])
    ∧ fsLoop cap g (RecvResult.err e :: trace) remaining written wc
      = (some FsOutcome.recvError, [], written) := by
  refine ⟨fwLoop_replicate_timeout upd f k trace remaining wc,
    fsLoop_replicate_timeout cap g k trace remaining written wc, ?_, ?_⟩
  · cases remaining with
    | zero => exact absurd rfl hrem
    | succ r => simp [fwLoop]
  · cases remaining with
    | zero => exact absurd rfl hrem
    | succ r => simp [fsLoop]

/-- C4 witness: two timeouts before a 5-byte chunk are transparent to
both loops, and an immediate non-timeout error fails at once. -/
theorem timeout_retry_unbounded_witness :
    ((5 : Nat) ≠ 0)
    ∧ (fwLoop 1 (fun _ => true) (List.replicate 2 RecvResult.timeout ++ [RecvResult.chunk 5]) 5 0
        = fwLoop 1 (fun _ => true) [RecvResult.chunk 5] 5 0
      ∧ fsLoop 10 (fun _ => true)
          (List.replicate 2 RecvResult.timeout ++ [RecvResult.chunk 5]) 5 0 0
        = fsLoop 10 (fun _ => true) [RecvResult.chunk 5] 5 0 0
      ∧ fwLoop 1 (fun _ => true) (RecvResult.err (-1) :: [RecvResult.chunk 5]) 5 0
        = (some FwOutcome.recvError, [OtaAction.otaEnd])
      ∧ fsLoop 10 (fun _ => true) (RecvResult.err (-1) :: [RecvResult.chunk 5]) 5 0 0
        = (some FsOutcome.recvError, [], 0)) :=
  ⟨by decide,
    timeout_retry_unbounded 1 10 (fun _ => true) (fun _ => true) [RecvResult.chunk 5] 2 5 0 0
      (-1) (by decide)⟩

/-- The firmware receive loop can only fail with blocked, recvError or
writeFailed. -/
theorem fwLoop_some_cases (upd : Nat) (f : Nat → Bool) :
    ∀ (trace : List RecvResult) (r wc : Nat) (o : FwOutcome),
      (fwLoop upd f trace r wc).1 = some o →
      o = FwOutcome.blocked ∨ o = FwOutcome.recvError ∨ o = FwOutcome.writeFailed := by
  intro trace
  induction trace with
  | nil =>
    intro r wc o h
    cases r with
    | zero => simp [fwLoop] at h
    | succ r =>
      simp [fwLoop] at h
      exact Or.inl h.symm
  | cons hd t ih =>
    intro r wc o h
    cases r with
    | zero => simp [fwLoop] at h
    | succ r =>
      cases hd with
      | timeout =>
        rw [fwLoop_timeout_skip] at h
        exact ih _ _ _ h
      | err c =>
        simp [fwLoop] at h
        exact Or.inr (Or.inl h.symm)
      | chunk n =>
        by_cases hf : f wc
        · simp [fwLoop, hf] at h
          exact ih _ _ _ h
        · simp [fwLoop, hf] at h
          exact Or.inr (Or.inr h.symm)

/-- The filesystem receive loop can only fail with blocked, recvError,
payloadTooLarge or writeFailed. -/
theorem fsLoop_some_cases (cap : Nat) (f : Nat → Bool) :
    ∀ (trace : List RecvResult) (r w wc : Nat) (o : FsOutcome),
      (fsLoop cap f trace r w wc).1 = some o →
      o = FsOutcome.blocked ∨ o = FsOutcome.recvError ∨ o = FsOutcome.payloadTooLarge
        ∨ o = FsOutcome.writeFailed := by
  intro trace
  induction trace with
  | nil =>
    intro r w wc o h
    cases r with
    | zero => simp [fsLoop] at h
    | succ r =>
      simp [fsLoop] at h
      exact Or.inl h.symm
  | cons hd t ih =>
    intro r w wc o h
    cases r with
    | zero => simp [fsLoop] at h
    | succ r =>
      cases hd with
      | timeout =>
        rw [fsLoop_timeout_skip] at h
        exact ih _ _ _ _ h
      | err c =>
        simp [fsLoop] at h
        exact Or.inr (Or.inl h.symm)
      | chunk n =>
        by_cases hcap : cap < (w + n) % SZ
        · simp [fsLoop, hcap] at h
          exact Or.inr (Or.inr (Or.inl h.symm))
        · by_cases hf : f wc
          · simp [fsLoop, hcap, hf] at h
            exact ih _ _ _ _ h
          · simp [fsLoop, hcap, hf] at h
            exact Or.inr (Or.inr (Or.inr h.symm))

/-- C3 (amended): the handlers maintain no update-session state and
contain no session-busy path: no invocation of either upload handler,
whatever the environment — in particular one standing for a second
begin() while another update is streaming — is ever rejected with
SessionBusy.  Mutual exclusion of concurrent uploads, if any, comes
from the HTTP server library outside this code. -/
theorem no_session_busy_possible (fe : FwEnv) (ge : FsEnv) :
    isSessionBusyFw (firmware_upload_handler fe).outcome = false
    ∧ isSessionBusyFs (fs_upload_handler ge).outcome = false := by
  constructor
  · unfold firmware_upload_handler
    by_cases hauth : is_authenticated fe.cookieHdr = false
    · simp [hauth, isSessionBusyFw]
    · cases hup : fe.updatePart with
      | none => simp [hauth, isSessionBusyFw]
      | some upd =>
        by_cases hb : fe.otaBeginOk = false
        · simp [hauth, hb, isSessionBusyFw]
        · by_cases hm : fe.mallocOk = false
          · simp [hauth, hb, hm, isSessionBusyFw]
          · rcases hL : fwLoop upd fe.writeOk fe.recvTrace fe.contentLen 0 with ⟨o, acts⟩
            cases o with
            | some o' =>
              have := fwLoop_some_cases upd fe.writeOk fe.recvTrace fe.contentLen 0 o'
                (by rw [hL])
              rcases this with rfl | rfl | rfl <;>
                simp [hauth, hb, hm, hL, isSessionBusyFw]
            | none =>
              by_cases he : fe.otaEndOk = false
              · simp [hauth, hb, hm, hL, he, isSessionBusyFw]
              · by_cases hs : fe.setBootOk = false
                · simp [hauth, hb, hm, hL, he, hs, isSessionBusyFw]
                · simp [hauth, hb, hm, hL, he, hs, isSessionBusyFw]
  · unfold fs_upload_handler
    by_cases hauth : is_authenticated ge.cookieHdr = false
    · simp [hauth, isSessionBusyFs]
    · by_cases hp : ge.partFound = false
      · simp [hauth, hp, isSessionBusyFs]
      · by_cases hz : ge.contentLen = 0
        · simp [hauth, hp, hz, isSessionBusyFs]
        · by_cases ho : ge.partSize < ge.contentLen
          · simp [hauth, hp, hz, ho, isSessionBusyFs]
          · by_cases he : ge.eraseOk = false
            · simp [hauth, hp, hz, ho, he, isSessionBusyFs]
            · by_cases hm : ge.mallocOk = false
              · simp [hauth, hp, hz, ho, he, hm, isSessionBusyFs]
              · rcases hL : fsLoop ge.partSize ge.writeOk ge.recvTrace ge.contentLen 0 0
                  with ⟨o, acts, w⟩
                cases o with
                | some o' =>
                  have := fsLoop_some_cases ge.partSize ge.writeOk ge.recvTrace
                    ge.contentLen 0 0 o' (by rw [hL])
                  rcases this with rfl | rfl | rfl | rfl <;>
                    simp [hauth, hp, hz, ho, he, hm, hL, isSessionBusyFs]
                | none => simp [hauth, hp, hz, ho, he, hm, hL, isSessionBusyFs]

/-- C3 counterexample: an authenticated upload request arriving while
another update is notionally in progress is not rejected with
SessionBusy and is not free of side effects: the handler takes no
session-state input at all, erases the partition and writes the
stream.  The claimed SessionBusy rejection does not exist in the
code. -/
theorem second_begin_not_rejected :
    isSessionBusyFs (fs_upload_handler fsEnvC3).outcome = false
    ∧ (fs_upload_handler fsEnvC3).outcome = FsOutcome.ok
    ∧ (fs_upload_handler fsEnvC3).actions
        = [FsAction.erase 65536, FsAction.write 0 100] :=
  ⟨by decide, by decide, by decide⟩

/-- Every storage action of the firmware receive loop is either the
cleanup esp_ota_end call or a write to the update partition. -/
theorem fwLoop_action_shape (upd : Nat) (f : Nat → Bool) :
    ∀ (trace : List RecvResult) (r wc : Nat), ∀ a ∈ (fwLoop upd f trace r wc).2,
      a = OtaAction.otaEnd ∨ ∃ n, a = OtaAction.otaWrite upd n := by
  intro trace
  induction trace with
  | nil =>
    intro r wc a ha
    cases r <;> simp [fwLoop] at ha
  | cons hd t ih =>
    intro r wc a ha
    cases r with
    | zero => simp [fwLoop] at ha
    | succ r =>
      cases hd with
      | timeout =>
        rw [fwLoop_timeout_skip] at ha
        exact ih _ _ a ha
      | err c =>
        simp [fwLoop] at ha
        exact Or.inl ha
      | chunk n =>
        by_cases hf : f wc
        · simp [fwLoop, hf] at ha
          rcases ha with rfl | ha
          · exact Or.inr ⟨n, rfl⟩
          · exact ih _ _ a ha
        · simp [fwLoop, hf] at ha
          rcases ha with rfl | rfl
          · exact Or.inr ⟨n, rfl⟩
          · exact Or.inl rfl

/-- The firmware receive loop never calls esp_ota_set_boot_partition. -/
theorem fwLoop_no_setBoot (upd : Nat) (f : Nat → Bool) (trace : List RecvResult) (r wc : Nat) :
    hasSetBoot (fwLoop upd f trace r wc).2 = false := by
  rw [hasSetBoot, List.any_eq_false]
  intro a ha
  rcases fwLoop_action_shape upd f trace r wc a ha with rfl | ⟨n, rfl⟩ <;> simp [isSetBootA]

/-- Every storage action of the firmware handler targets the update
partition selected at the start (or is the neutral esp_ota_end /
set-boot-pointer call). -/
theorem fw_actions_shape (env : FwEnv) (upd : Nat) (hupd : env.updatePart = some upd) :
    ∀ a ∈ (firmware_upload_handler env).actions,
      a = OtaAction.otaBegin upd ∨ a = OtaAction.otaEnd
      ∨ (∃ n, a = OtaAction.otaWrite upd n) ∨ a = OtaAction.setBootPartition upd := by
  intro a ha
  by_cases hauth : is_authenticated env.cookieHdr = false
  · simp [firmware_upload_handler, hauth] at ha
  · by_cases hb : env.otaBeginOk = false
    · simp [firmware_upload_handler, hauth, hupd, hb] at ha
      exact Or.inl ha
    · by_cases hm : env.mallocOk = false
      · simp [firmware_upload_handler, hauth, hupd, hb, hm] at ha
        rcases ha with rfl | rfl
        · exact Or.inl rfl
        · exact Or.inr (Or.inl rfl)
      · rcases hL : fwLoop upd env.writeOk env.recvTrace env.contentLen 0 with ⟨o, acts⟩
        have hsh : ∀ b ∈ acts, b = OtaAction.otaEnd ∨ ∃ n, b = OtaAction.otaWrite upd n := by
          intro b hb'
          exact fwLoop_action_shape upd env.writeOk env.recvTrace env.contentLen 0 b
            (by rw [hL]; exact hb')
        cases o with
        | some o' =>
          simp [firmware_upload_handler, hauth, hupd, hb, hm, hL] at ha
          rcases ha with rfl | ha
          · exact Or.inl rfl
          · rcases hsh a ha with rfl | ⟨n, rfl⟩
            · exact Or.inr (Or.inl rfl)
            · exact Or.inr (Or.inr (Or.inl ⟨n, rfl⟩))
        | none =>
          by_cases he : env.otaEndOk = false
          · simp [firmware_upload_handler, hauth, hupd, hb, hm, hL, he] at ha
            rcases ha with rfl | ha | rfl
            · exact Or.inl rfl
            · rcases hsh a ha with rfl | ⟨n, rfl⟩
              · exact Or.inr (Or.inl rfl)
              · exact Or.inr (Or.inr (Or.inl ⟨n, rfl⟩))
            · exact Or.inr (Or.inl rfl)
          · by_cases hs : env.setBootOk = false
            · simp [firmware_upload_handler, hauth, hupd, hb, hm, hL, he, hs] at ha
              rcases ha with rfl | ha | rfl | rfl
              · exact Or.inl rfl
              · rcases hsh a ha with rfl | ⟨n, rfl⟩
                · exact Or.inr (Or.inl rfl)
                · exact Or.inr (Or.inr (Or.inl ⟨n, rfl⟩))
              · exact Or.inr (Or.inl rfl)
              · exact Or.inr (Or.inr (Or.inr rfl))
            · simp [firmware_upload_handler, hauth, hupd, hb, hm, hL, he, hs] at ha
              rcases ha with rfl | ha | rfl | rfl
              · exact Or.inl rfl
              · rcases hsh a ha with rfl | ⟨n, rfl⟩
                · exact Or.inr (Or.inl rfl)
                · exact Or.inr (Or.inr (Or.inl ⟨n, rfl⟩))
              · exact Or.inr (Or.inl rfl)
              · exact Or.inr (Or.inr (Or.inr rfl))

/-- The boot pointer is touched only after esp_ota_end (the integrity
verifier) succeeded, i.e. only on the ok and setBootFailed outcomes. -/
theorem fw_setBoot_only_after_end (env : FwEnv) (upd : Nat)
    (hupd : env.updatePart = some upd)
    (h : hasSetBoot (firmware_upload_handler env).actions = true) :
    env.otaEndOk = true
    ∧ ((firmware_upload_handler env).outcome = FwOutcome.ok
      ∨ (firmware_upload_handler env).outcome = FwOutcome.setBootFailed) := by
  by_cases hauth : is_authenticated env.cookieHdr = false
  · simp [firmware_upload_handler, hauth, hasSetBoot] at h
  · by_cases hb : env.otaBeginOk = false
    · simp [firmware_upload_handler, hauth, hupd, hb, hasSetBoot, isSetBootA] at h
    · by_cases hm : env.mallocOk = false
      · simp [firmware_upload_handler, hauth, hupd, hb, hm, hasSetBoot, isSetBootA] at h
      · rcases hL : fwLoop upd env.writeOk env.recvTrace env.contentLen 0 with ⟨o, acts⟩
        have hnb : acts.any isSetBootA = false := by
          have hx := fwLoop_no_setBoot upd env.writeOk env.recvTrace env.contentLen 0
          rw [hasSetBoot, hL] at hx
          exact hx
        cases o with
        | some o' =>
          simp [firmware_upload_handler, hauth, hupd, hb, hm, hL, hasSetBoot, isSetBootA,
            hnb] at h
        | none =>
          by_cases he : env.otaEndOk = false
          · simp [firmware_upload_handler, hauth, hupd, hb, hm, hL, he, hasSetBoot,
              isSetBootA, hnb] at h
          · have hend : env.otaEndOk = true := by
              cases hEnd : env.otaEndOk
              · exact absurd hEnd he
              · rfl
            refine ⟨hend, ?_⟩
            by_cases hs : env.setBootOk = false
            · right
              simp [firmware_upload_handler, hauth, hupd, hb, hm, hL, he, hs]
            · left
              simp [firmware_upload_handler, hauth, hupd, hb, hm, hL, he, hs]

/-- C1: a firmware update never touches the currently booting
partition: esp_ota_begin and every esp_ota_write act only on the update
partition selected by esp_ota_get_next_update_partition (assumed, per
the OTA library contract, distinct from the running one), and the boot
pointer is changed (esp_ota_set_boot_partition) only after the
integrity verifier esp_ota_end succeeds — on every enumerated failure
path (begin, allocation, receive, write, verifier) the handler returns
without any set-boot call, leaving the device bootable on the old
image. -/
theorem ota_failsafe_no_active_write (env : FwEnv) (upd : Nat)
    (hupd : env.updatePart = some upd) (hne : upd ≠ env.runningPart) :
    (∀ a ∈ (firmware_upload_handler env).actions, touchesPart env.runningPart a = false)
    ∧ (∀ a ∈ (firmware_upload_handler env).actions,
        ∀ q n, a = OtaAction.otaWrite q n → q = upd)
    ∧ (hasSetBoot (firmware_upload_handler env).actions = true →
        env.otaEndOk = true
        ∧ ((firmware_upload_handler env).outcome = FwOutcome.ok
          ∨ (firmware_upload_handler env).outcome = FwOutcome.setBootFailed))
    ∧ (isFailureOutcome (firmware_upload_handler env).outcome = true →
        hasSetBoot (firmware_upload_handler env).actions = false) := by
  refine ⟨?_, ?_, fw_setBoot_only_after_end env upd hupd, ?_⟩
  · intro a ha
    rcases fw_actions_shape env upd hupd a ha with rfl | rfl | ⟨n, rfl⟩ | rfl <;>
      simp [touchesPart, hne]
  · intro a ha q n heq
    rcases fw_actions_shape env upd hupd a ha with h | h | ⟨m, h⟩ | h <;> rw [h] at heq
    · simp at heq
    · simp at heq
    · injection heq with h1 h2
      exact h1.symm
    · simp at heq
  · intro hfail
    cases hsb : hasSetBoot (firmware_upload_handler env).actions
    · rfl
    · obtain ⟨hend, hok⟩ := fw_setBoot_only_after_end env upd hupd hsb
      rcases hok with h | h <;> rw [h] at hfail <;> simp [isFailureOutcome] at hfail

/-- C1 witness: a fully successful firmware upload into update
partition 1 while running from partition 0. -/
theorem ota_failsafe_witness :
    (fwEnvW.updatePart = some 1 ∧ (1 : Nat) ≠ fwEnvW.runningPart)
    ∧ ((∀ a ∈ (firmware_upload_handler fwEnvW).actions,
          touchesPart fwEnvW.runningPart a = false)
      ∧ (∀ a ∈ (firmware_upload_handler fwEnvW).actions,
          ∀ q n, a = OtaAction.otaWrite q n → q = 1)
      ∧ (hasSetBoot (firmware_upload_handler fwEnvW).actions = true →
          fwEnvW.otaEndOk = true
          ∧ ((firmware_upload_handler fwEnvW).outcome = FwOutcome.ok
            ∨ (firmware_upload_handler fwEnvW).outcome = FwOutcome.setBootFailed))
      ∧ (isFailureOutcome (firmware_upload_handler fwEnvW).outcome = true →
          hasSetBoot (firmware_upload_handler fwEnvW).actions = false)) :=
  ⟨⟨rfl, by decide⟩, ota_failsafe_no_active_write fwEnvW 1 rfl (by decide)⟩

/-- The size_t update remaining -= n computes remaining - n whenever n
does not exceed remaining and remaining fits in 32 bits. -/
theorem sz_mod_sub (r n : Nat) (h1 : n ≤ r) (h2 : r < SZ) :
    (r + (SZ - n % SZ)) % SZ = r - n := by
  have h2' : r < 4294967296 := h2
  show (r + (4294967296 - n % 4294967296)) % 4294967296 = r - n
  omega

/-- Every write the filesystem receive loop performs ends at or below
the partition capacity: the bounds guard rejects the chunk first
otherwise. -/
theorem fsLoop_writes_bounded (cap : Nat) (f : Nat → Bool) :
    ∀ (trace : List RecvResult) (r w wc off n : Nat),
      FsAction.write off n ∈ (fsLoop cap f trace r w wc).2.1 → (off + n) % SZ ≤ cap := by
  intro trace
  induction trace with
  | nil =>
    intro r w wc off n h
    cases r <;> simp [fsLoop] at h
  | cons hd t ih =>
    intro r w wc off n h
    cases r with
    | zero => simp [fsLoop] at h
    | succ r =>
      cases hd with
      | timeout =>
        rw [fsLoop_timeout_skip] at h
        exact ih _ _ _ _ _ h
      | err c => simp [fsLoop] at h
      | chunk m =>
        by_cases hcap : cap < (w + m) % SZ
        · simp [fsLoop, hcap] at h
        · by_cases hf : f wc
          · simp [fsLoop, hcap, hf] at h
            rcases h with ⟨rfl, rfl⟩ | h
            · exact Nat.le_of_not_lt hcap
            · exact ih _ _ _ _ _ h
          · simp [fsLoop, hcap, hf] at h
            obtain ⟨rfl, rfl⟩ := h
            exact Nat.le_of_not_lt hcap

/-- Every write action the filesystem handler performs ends at or below
the partition capacity. -/
theorem fs_handler_write_bounded (env : FsEnv) :
    ∀ a ∈ (fs_upload_handler env).actions, ∀ off m, a = FsAction.write off m →
      (off + m) % SZ ≤ env.partSize := by
  intro a ha off m heq
  subst heq
  by_cases hauth : is_authenticated env.cookieHdr = false
  · simp [fs_upload_handler, hauth] at ha
  · by_cases hp : env.partFound = false
    · simp [fs_upload_handler, hauth, hp] at ha
    · by_cases hz : env.contentLen = 0
      · simp [fs_upload_handler, hauth, hp, hz] at ha
      · by_cases ho : env.partSize < env.contentLen
        · simp [fs_upload_handler, hauth, hp, hz, ho] at ha
        · by_cases he : env.eraseOk = false
          · simp [fs_upload_handler, hauth, hp, hz, ho, he] at ha
          · by_cases hm : env.mallocOk = false
            · simp [fs_upload_handler, hauth, hp, hz, ho, he, hm] at ha
            · rcases hL : fsLoop env.partSize env.writeOk env.recvTrace env.contentLen 0 0
                with ⟨o, acts, w⟩
              have hwb : FsAction.write off m ∈ acts → (off + m) % SZ ≤ env.partSize := by
                intro hmem
                exact fsLoop_writes_bounded env.partSize env.writeOk env.recvTrace
                  env.contentLen 0 0 off m (by rw [hL]; exact hmem)
              cases o with
              | some o' =>
                simp [fs_upload_handler, hauth, hp, hz, ho, he, hm, hL] at ha
                exact hwb ha
              | none =>
                simp [fs_upload_handler, hauth, hp, hz, ho, he, hm, hL] at ha
                exact hwb ha

/-- C6: a declared length exceeding the partition capacity fails the
session with the 413 capacity response before any erase or write; in
the receive loop a chunk that would carry the running byte count past
the capacity yields the same capacity failure, writes nothing and stops
the session; and consequently every write any filesystem-upload session
performs ends at or below the capacity. -/
theorem capacity_exceeded_rejects (env env2 : FsEnv) (cap n remaining written wc : Nat)
    (f : Nat → Bool) (rest : List RecvResult)
    (hauth : is_authenticated env.cookieHdr = true) (hfound : env.partFound = true)
    (hpos : 0 < env.contentLen) (hover : env.partSize < env.contentLen)
    (hrem : remaining ≠ 0) (hexc : cap < (written + n) % SZ) :
    (fs_upload_handler env).outcome = FsOutcome.payloadTooLarge
    ∧ (fs_upload_handler env).actions = []
    ∧ fsLoop cap f (RecvResult.chunk n :: rest) remaining written wc
        = (some FsOutcome.payloadTooLarge, [], written)
    ∧ (∀ a ∈ (fs_upload_handler env2).actions, ∀ off m, a = FsAction.write off m →
        (off + m) % SZ ≤ env2.partSize) := by
  have hz : ¬ env.contentLen = 0 := Nat.pos_iff_ne_zero.mp hpos
  refine ⟨?_, ?_, ?_, fs_handler_write_bounded env2⟩
  · simp [fs_upload_handler, hauth, hfound, hz, hover]
  · simp [fs_upload_handler, hauth, hfound, hz, hover]
  · cases remaining with
    | zero => exact absurd rfl hrem
    | succ r => simp [fsLoop, hexc]

/-- C6 witness: declared length 20 into a 10-byte partition is rejected
with the capacity response and no actions, and a chunk carrying the
count from 6 to 11 past capacity 10 is rejected in the loop. -/
theorem capacity_exceeded_rejects_witness :
    (is_authenticated fsEnvC6.cookieHdr = true ∧ fsEnvC6.partFound = true
      ∧ 0 < fsEnvC6.contentLen ∧ fsEnvC6.partSize < fsEnvC6.contentLen
      ∧ (1 : Nat) ≠ 0 ∧ 10 < (6 + 5) % SZ)
    ∧ ((fs_upload_handler fsEnvC6).outcome = FsOutcome.payloadTooLarge
      ∧ (fs_upload_handler fsEnvC6).actions = []
      ∧ fsLoop 10 (fun _ => true) (RecvResult.chunk 5 :: []) 1 6 0
          = (some FsOutcome.payloadTooLarge, [], 6)
      ∧ (∀ a ∈ (fs_upload_handler fsEnvC6b).actions, ∀ off m, a = FsAction.write off m →
          (off + m) % SZ ≤ fsEnvC6b.partSize)) :=
  ⟨⟨by decide, by decide, by decide, by decide, by decide, by decide⟩,
    capacity_exceeded_rejects fsEnvC6 fsEnvC6b 10 5 1 6 0 (fun _ => true) []
      (by decide) (by decide) (by decide) (by decide) (by decide) (by decide)⟩

/-- If the filesystem receive loop completes on a well-formed trace and
the byte budget fits the capacity, the final written counter equals the
initial counter plus all remaining bytes. -/
theorem fsLoop_complete (cap : Nat) (f : Nat → Bool) :
    ∀ (trace : List RecvResult) (r w wc : Nat) (acts : List FsAction) (wr : Nat),
      traceValid r trace = true → w + r ≤ cap → cap < SZ →
      fsLoop cap f trace r w wc = (none, acts, wr) → wr = w + r := by
  intro trace
  induction trace with
  | nil =>
    intro r w wc acts wr hv hb hsz heq
    cases r with
    | zero =>
      simp [fsLoop] at heq
      omega
    | succ r => simp [fsLoop] at heq
  | cons hd t ih =>
    intro r w wc acts wr hv hb hsz heq
    cases r with
    | zero =>
      simp [fsLoop] at heq
      omega
    | succ r =>
      cases hd with
      | timeout =>
        rw [fsLoop_timeout_skip] at heq
        have hv' : traceValid (r + 1) t = true := by simpa [traceValid] using hv
        exact ih (r + 1) w wc acts wr hv' hb hsz heq
      | err c => simp [fsLoop] at heq
      | chunk n =>
        have hv' : (0 < n ∧ n ≤ min (r + 1) 4096) ∧ traceValid (r + 1 - n) t = true := by
          simpa [traceValid, Bool.and_eq_true, decide_eq_true_eq, and_assoc] using hv
        obtain ⟨⟨hv1, hv2⟩, hv3⟩ := hv'
        have hnr : n ≤ r + 1 := le_trans hv2 (min_le_left _ _)
        have hwn : w + n ≤ cap := by omega
        have hszlt : w + n < SZ := lt_of_le_of_lt hwn hsz
        have hmod : (w + n) % SZ = w + n := Nat.mod_eq_of_lt hszlt
        have hcap : ¬ cap < (w + n) % SZ := by
          rw [hmod]
          omega
        have hrsz : r + 1 < SZ := by omega
        have hrem' : (r + 1 + (SZ - n % SZ)) % SZ = r + 1 - n := sz_mod_sub (r + 1) n hnr hrsz
        have hcap2 : ¬ cap < w + n := by omega
        by_cases hf : f wc
        · rcases hrec : fsLoop cap f t (r + 1 - n) (w + n) (wc + 1) with ⟨o2, acts2, wr2⟩
          simp [fsLoop, hcap, hcap2, hf, hmod, hrem', hrec] at heq
          obtain ⟨ho2, hacts, hwr⟩ := heq
          have hrec' : fsLoop cap f t (r + 1 - n) (w + n) (wc + 1) = (none, acts2, wr2) := by
            rw [hrec, ho2]
          have := ih (r + 1 - n) (w + n) (wc + 1) acts2 wr2 hv3 (by omega) hsz hrec'
          omega
        · simp [fsLoop, hcap, hf] at heq

/-- C8: with a known declared length, the session completes only when
exactly that many bytes were written; with declared length 1000 and
chunks of 400, 400 and 200 bytes it completes with written = 1000; a
stream that cannot supply the declared total never completes. -/
theorem declared_length_completion (env : FsEnv)
    (hvalid : traceValid env.contentLen env.recvTrace = true)
    (hcap : env.contentLen ≤ env.partSize) (hsz : env.partSize < SZ) :
    ((fs_upload_handler env).outcome = FsOutcome.ok →
      (fs_upload_handler env).written = env.contentLen)
    ∧ (fs_upload_handler fsEnv1000).outcome = FsOutcome.ok
    ∧ (fs_upload_handler fsEnv1000).written = 1000 := by
  refine ⟨?_, by decide, by decide⟩
  intro hok
  by_cases hauth : is_authenticated env.cookieHdr = false
  · simp [fs_upload_handler, hauth] at hok
  · by_cases hp : env.partFound = false
    · simp [fs_upload_handler, hauth, hp] at hok
    · by_cases hz : env.contentLen = 0
      · simp [fs_upload_handler, hauth, hp, hz] at hok
      · by_cases ho : env.partSize < env.contentLen
        · simp [fs_upload_handler, hauth, hp, hz, ho] at hok
        · by_cases he : env.eraseOk = false
          · simp [fs_upload_handler, hauth, hp, hz, ho, he] at hok
          · by_cases hm : env.mallocOk = false
            · simp [fs_upload_handler, hauth, hp, hz, ho, he, hm] at hok
            · rcases hL : fsLoop env.partSize env.writeOk env.recvTrace env.contentLen 0 0
                with ⟨o, acts, w⟩
              cases o with
              | some o' =>
                have := fsLoop_some_cases env.partSize env.writeOk env.recvTrace
                  env.contentLen 0 0 o' (by rw [hL])
                rcases this with rfl | rfl | rfl | rfl <;>
                  simp [fs_upload_handler, hauth, hp, hz, ho, he, hm, hL] at hok
              | none =>
                have hw := fsLoop_complete env.partSize env.writeOk env.recvTrace
                  env.contentLen 0 0 acts w hvalid (by omega) hsz hL
                simp [fs_upload_handler, hauth, hp, hz, ho, he, hm, hL]
                omega

/-- C8 witness: the 400/400/200 upload against declared length 1000. -/
theorem declared_length_completion_witness :
    (traceValid fsEnv1000.contentLen fsEnv1000.recvTrace = true
      ∧ fsEnv1000.contentLen ≤ fsEnv1000.partSize ∧ fsEnv1000.partSize < SZ)
    ∧ (((fs_upload_handler fsEnv1000).outcome = FsOutcome.ok →
        (fs_upload_handler fsEnv1000).written = fsEnv1000.contentLen)
      ∧ (fs_upload_handler fsEnv1000).outcome = FsOutcome.ok
      ∧ (fs_upload_handler fsEnv1000).written = 1000) :=
  ⟨⟨by decide, by decide, by decide⟩,
    declared_length_completion fsEnv1000 (by decide) (by decide) (by decide)⟩
